import Mathlib

/-
Verification development for the target-oracle loading sink
(src/target_oracle/sinks.py).  Python strings are modelled as lists of
Unicode code points (List Nat); each definition mirrors one function of
the source, with the regular expressions of the source expanded into
explicit scans.
-/

namespace TargetOracle

/-! ### NameConformer (sinks.py, OracleSink.snakecase / move_leading_underscores /
conform_name, lines 503-523) -/

/-- Code point class of the regex class [A-Z]. -/
def isUpperCode (n : Nat) : Bool := 65 ≤ n && n ≤ 90

/-- Code point class of the regex class [a-z]. -/
def isLowerCode (n : Nat) : Bool := 97 ≤ n && n ≤ 122

/-- Code point class of the regex class [0-9]. -/
def isDigitCode (n : Nat) : Bool := 48 ≤ n && n ≤ 57

/-- Code point class of the regex class [a-zA-Z0-9_]; 95 is the underscore. -/
def isWordCode (n : Nat) : Bool := isUpperCode n || isLowerCode n || isDigitCode n || n == 95

/-- Python str.lower on one code point, for the code points that can occur
here (ASCII after the first conforming step): [A-Z] shifts by 32. -/
def lowerCode (n : Nat) : Nat := if isUpperCode n then n + 32 else n

/-- Scan for the first step of conform_name: the flag records whether the
scan is inside a run of non-word characters, so that a whole run yields one
underscore. -/
def subNonWordAux : Bool → List Nat → List Nat
  | _, [] => []
  | inRun, c :: cs =>
    if isWordCode c then c :: subNonWordAux false cs
    else if inRun then subNonWordAux true cs
    else 95 :: subNonWordAux true cs

/-- First step of conform_name:
re.sub of one or more characters outside [a-zA-Z0-9_] by a single underscore
(pattern [^a-zA-Z0-9_]+, replacement _). -/
def subNonWord (s : List Nat) : List Nat := subNonWordAux false s

/-- move_leading_underscores: re.match of the anchored pattern
underscore-star, dot-star; the result is group 2 followed by group 1.
The dot of the pattern does not match a newline (code 10), so group 2
stops at the first newline. -/
def move_leading_underscores (s : List Nat) : List Nat :=
  ((s.dropWhile (fun d => d == 95)).takeWhile (fun d => d != 10)) ++
    s.takeWhile (fun d => d == 95)

/-- First re.sub of snakecase: pattern of any character (not newline),
then [A-Z], then one or more [a-z] (greedy); replacement keeps group 1,
inserts an underscore, keeps group 2.  The scan is leftmost and resumes
after each match. -/
def camelSub1 : List Nat → List Nat
  | c :: d :: e :: tl =>
    if c != 10 && isUpperCode d && isLowerCode e then
      c :: 95 :: d :: e :: (tl.takeWhile isLowerCode ++ camelSub1 (tl.dropWhile isLowerCode))
    else
      c :: camelSub1 (d :: e :: tl)
  | s => s
termination_by l => l.length
decreasing_by
  · simp only [List.length_cons]
    have := (List.dropWhile_sublist (l := tl) isLowerCode).length_le
    omega
  · simp only [List.length_cons]; omega

/-- Second re.sub of snakecase: pattern [a-z0-9] then [A-Z]; replacement
keeps both groups with an underscore between.  The scan resumes after
each two-character match. -/
def camelSub2 : List Nat → List Nat
  | c :: d :: tl =>
    if (isLowerCode c || isDigitCode c) && isUpperCode d then
      c :: 95 :: d :: camelSub2 tl
    else
      c :: camelSub2 (d :: tl)
  | s => s
termination_by l => l.length
decreasing_by
  · simp only [List.length_cons]; omega
  · simp only [List.length_cons]; omega

/-- snakecase: the two camel-case re.subs followed by str.lower. -/
def snakecase (s : List Nat) : List Nat :=
  (camelSub2 (camelSub1 s)).map lowerCode

/-- conform_name: strip to word characters, rotate leading underscores to
the end, snakecase, and prefix the letter n (code 110) when the result
starts with a digit. -/
def conform_name (s : List Nat) : List Nat :=
  match snakecase (move_leading_underscores (subNonWord s)) with
  | [] => []
  | c :: t => if isDigitCode c then 110 :: c :: t else c :: t

/-! ### TypeMapper (sinks.py, OracleConnector.to_sql_type and
_jsonschema_type_check, lines 121-179) -/

/-- The type entry of a JSON schema fragment: absent, a single tag, or a
list of alternative tags. -/
inductive TypeTag where
  | absent
  | one (t : String)
  | many (ts : List String)

/-- A JSON schema fragment as consumed by to_sql_type: a type entry, an
optional format, an optional maxLength and a list of anyOf subschemas. -/
inductive JsonSchema where
  | mk (typeTag : TypeTag) (format : Option String) (maxLength : Option Nat)
      (anyOf : List JsonSchema)

def JsonSchema.format : JsonSchema → Option String
  | .mk _ f _ _ => f

def JsonSchema.maxLength : JsonSchema → Option Nat
  | .mk _ _ m _ => m

mutual

/-- _jsonschema_type_check: the direct type entry matches when the single
tag is in type_check, or when any member of a tag list is; then the anyOf
subschemas are checked recursively. -/
def _jsonschema_type_check : JsonSchema → List String → Bool
  | .mk tt _ _ anyOf, check =>
    (match tt with
     | .one t => check.contains t
     | .many ts => ts.any (fun t => check.contains t)
     | .absent => false) || anyOfCheck anyOf check

def anyOfCheck : List JsonSchema → List String → Bool
  | [], _ => false
  | j :: js, check => _jsonschema_type_check j check || anyOfCheck js check

end

/-- A string fragment carrying one of the three date-like formats. -/
def isStringWithDatelikeFormat : JsonSchema → Bool
  | .mk tt f _ _ =>
    (match tt with
     | .one t => t == "string"
     | .many ts => ts.contains "string"
     | .absent => false) &&
    (f == some "date-time" || f == some "time" || f == some "date")

/-- Modelled from the spec: get_datelike_property_type is imported from the
singer-sdk helper library (singer_sdk.helpers._typing) and its source is not
part of src/.  Spec section 4.1, rules 1-3: a string fragment with a
date-time, time or date format reports that format, and "matching must
recurse into alternatives and match if any alternative matches". -/
def get_datelike_property_type (js : JsonSchema) : Option String :=
  match js with
  | .mk _ f _ anyOf =>
    if isStringWithDatelikeFormat js then f
    else (anyOf.find? isStringWithDatelikeFormat).bind JsonSchema.format

/-- The configuration surface read by the pieces under study. -/
structure Config where
  prefer_float_over_numeric : Bool
  target_schema : Option String
  freeze_schema : Bool

/-- The column type descriptors this connector deals in, one constructor per
sqlalchemy type the source constructs or compares: VARCHAR(n) (also the
oracle dialect VARCHAR, an alias), oracle CLOB, INTEGER, NUMERIC(p, s),
FLOAT, oracle TIMESTAMP and DATE.  The fixed-width CHAR(n) and native
BOOLEAN constructors complete the dialect vocabulary for comparison
purposes; to_sql_type never produces either. -/
inductive SQLType where
  | varchar (length : Nat)
  | clob
  | integer
  | numeric (precision scale : Nat)
  | float
  | timestamp
  | date
  | char (length : Nat)
  | boolean
deriving DecidableEq

/-- Python str(t) of the sqlalchemy type, the generic rendering used by the
source for comparisons. -/
def strType : SQLType → String
  | .varchar n => "VARCHAR(" ++ toString n ++ ")"
  | .clob => "CLOB"
  | .integer => "INTEGER"
  | .numeric p s => "NUMERIC(" ++ toString p ++ ", " ++ toString s ++ ")"
  | .float => "FLOAT"
  | .timestamp => "TIMESTAMP"
  | .date => "DATE"
  | .char n => "CHAR(" ++ toString n ++ ")"
  | .boolean => "BOOLEAN"

/-- getattr(t, "length", 0): VARCHAR and CHAR expose their bound, CLOB
exposes the Python value None (none here); types without the attribute give
the getattr default 0. -/
def getLength : SQLType → Option Nat
  | .varchar n => some n
  | .char n => some n
  | .clob => none
  | _ => some 0

/-- issubclass(type(t.as_generic()), (String, Unicode)): the character
types. -/
def isTextLike : SQLType → Bool
  | .varchar _ => true
  | .clob => true
  | .char _ => true
  | _ => false

/-- to_sql_type (sinks.py 121-160).  The branch on the reported date-like
format follows the source: date-time and time yield TIMESTAMP (the source
tests membership of the format in the literal "time", which over the three
possible formats holds exactly for "time"), date yields DATE.  A string
with no declared maxLength, or one above 4000, yields CLOB, otherwise
VARCHAR(maxLength); integer yields INTEGER; number yields FLOAT or
NUMERIC(38, 10) by configuration; boolean yields VARCHAR(1); object and
array yield CLOB; everything else falls back to VARCHAR(4000). -/
def to_sql_type (cfg : Config) (js : JsonSchema) : SQLType :=
  if _jsonschema_type_check js ["string"] then
    let dl := get_datelike_property_type js
    if dl = some "date-time" then .timestamp
    else if dl = some "time" then .timestamp
    else if dl = some "date" then .date
    else
      match js.maxLength with
      | none => .clob
      | some m => if 4000 < m then .clob else .varchar m
  else if _jsonschema_type_check js ["integer"] then .integer
  else if _jsonschema_type_check js ["number"] then
    (if cfg.prefer_float_over_numeric then .float else .numeric 38 10)
  else if _jsonschema_type_check js ["boolean"] then .varchar 1
  else if _jsonschema_type_check js ["object"] then .clob
  else if _jsonschema_type_check js ["array"] then .clob
  else .varchar 4000

/-! ### TypeMerger (sinks.py, OracleConnector.merge_sql_types, lines
287-321), with the sort it inherits from the library modelled from the
spec -/

/-- Modelled from the spec: the capability class of a descriptor, for the
stable precedence of section 4.2 (_sort_types is inherited from the
singer-sdk SQLConnector and its source is not part of src/).  Character
types form the most capable class, then datetime, date, integer, float,
decimal, boolean. -/
def typeClassRank : SQLType → Nat
  | .varchar _ => 6
  | .clob => 6
  | .char _ => 6
  | .timestamp => 5
  | .date => 4
  | .integer => 3
  | .float => 2
  | .numeric _ _ => 1
  | .boolean => 0

/-- Within one capability class, an unlimited length descriptor is at least
as capable as anything, and bounded lengths compare by size. -/
def capWithin (a b : SQLType) : Bool :=
  match getLength a, getLength b with
  | none, _ => true
  | some _, none => false
  | some x, some y => y ≤ x

/-- a is at least as capable as b: higher class first, within a class by
capWithin. -/
def capGE (a b : SQLType) : Bool :=
  if typeClassRank a == typeClassRank b then capWithin a b
  else typeClassRank b < typeClassRank a

/-- One step of a stable insertion sort by descending capability. -/
def insertByCap (x : SQLType) : List SQLType → List SQLType
  | [] => [x]
  | y :: ys => if capGE x y then x :: y :: ys else y :: insertByCap x ys

/-- Modelled from the spec: _sort_types, section 4.2 — "sort the pair by a
stable precedence (e.g., by descending capability class) before each
pairwise merge".  A stable insertion sort placing more capable descriptors
first. -/
def _sort_types : List SQLType → List SQLType
  | [] => []
  | x :: xs => insertByCap x (_sort_types xs)

/-- Length preservation of the modelled sort, needed to see that the
recursion of merge_sql_types terminates. -/
theorem insertByCap_length (x : SQLType) (l : List SQLType) :
    (insertByCap x l).length = l.length + 1 := by
  induction l with
  | nil => rfl
  | cons y ys ih =>
    simp only [insertByCap]
    by_cases h : capGE x y = true
    · simp [h]
    · simp [h, ih]

theorem _sort_types_length (l : List SQLType) :
    (_sort_types l).length = l.length := by
  induction l with
  | nil => rfl
  | cons x xs ih => simp [_sort_types, insertByCap_length, ih]

/-- Body of the for loop of merge_sql_types (lines 309-319) for one opt: a
character type is returned when its length attribute is None, 0, or at
least the length of current_type (the head of the original, unsorted
argument list); a non-character type is returned when its str rendering
equals that of current_type. -/
def mergeOption (current opt : SQLType) : Option SQLType :=
  if isTextLike opt then
    let currentLen := (getLength current).getD 0
    match getLength opt with
    | none => some opt
    | some l => if l == 0 || currentLen ≤ l then some opt else none
  else if strType opt == strType current then some opt
  else none

/-- The for loop of merge_sql_types over the sorted pair. -/
def loopOptions (current : SQLType) : List SQLType → Option SQLType
  | [] => none
  | opt :: rest =>
    match mergeOption current opt with
    | some r => some r
    | none => loopOptions current rest

/-- The comma-join of str renderings used in the failure message. -/
def joinTypes : List SQLType → String
  | [] => ""
  | [t] => strType t
  | t :: rest => strType t ++ ", " ++ joinTypes rest

/-- merge_sql_types (sinks.py 287-321): an empty argument raises; a single
descriptor is returned; otherwise the list is sorted, lists longer than two
are merged pairwise and recursively, and a pair is resolved by the option
loop against the head of the original argument list. -/
def merge_sql_types : List SQLType → Except String SQLType
  | [] => .error "Expected at least one member in sql_types argument."
  | [t] => .ok t
  | t0 :: t1 :: rest =>
    let sorted := _sort_types (t0 :: t1 :: rest)
    if 0 < rest.length then
      match merge_sql_types (sorted.take 2) with
      | .error e => .error e
      | .ok m => merge_sql_types (m :: sorted.drop 2)
    else
      match loopOptions t0 sorted with
      | some r => .ok r
      | none => .error ("Unable to merge sql types: " ++ joinTypes sorted)
termination_by l => l.length
decreasing_by
  · simp only [List.length_take, _sort_types_length, List.length_cons]
    omega
  · simp only [List.length_cons, List.length_drop, _sort_types_length]
    omega

/-! ### SchemaReconciler pieces (sinks.py, _adapt_column_type lines 323-355
and create_empty_table lines 248-285) -/

/-- A DDL action as the source would execute it: either the single CREATE
TABLE that meta.create_all emits for a registered table, or one ALTER TABLE
MODIFY. -/
inductive DdlAction where
  | createTable (schemaName : Option String) (tableName : String)
      (columns : List (String × SQLType)) (pk : Option (String × List String))
  | alterModify (tableName columnName : String) (newType : SQLType)
deriving DecidableEq

/-- str(x).split(" ")[0]: the prefix before the first space. -/
def firstWord (s : String) : String :=
  String.mk (s.data.takeWhile (fun c => c != ' '))

/-- _adapt_column_type (sinks.py 323-355).  The introspected current column
type (self._get_column_type) is passed in as an argument, and the ALTER the
source would execute is returned as an action.  An identical str rendering
returns nothing; otherwise the merged type is computed, and when its first
word matches that of the current type no DDL is needed; alteration is
refused when allow_column_alter is cleared. -/
def _adapt_column_type (allow_column_alter : Bool)
    (full_table_name column_name : String)
    (current_type sql_type : SQLType) : Except String (List DdlAction) :=
  if strType sql_type == strType current_type then .ok []
  else
    match merge_sql_types [current_type, sql_type] with
    | .error e => .error e
    | .ok compatible_sql_type =>
      if firstWord (strType compatible_sql_type) == firstWord (strType current_type) then
        .ok []
      else if !allow_column_alter then
        .error ("Altering columns is not supported. Could not convert column " ++
          full_table_name ++ "." ++ column_name ++ " from " ++ strType current_type ++
          " to " ++ strType compatible_sql_type ++ ".")
      else
        .ok [DdlAction.alterModify full_table_name column_name compatible_sql_type]

/-- Split a character list at every period, Python split("."). -/
def splitOnDotAux (acc : List Char) : List Char → List (List Char)
  | [] => [acc]
  | c :: cs =>
    if c = '.' then acc :: splitOnDotAux [] cs
    else splitOnDotAux (acc ++ [c]) cs

/-- Modelled from the spec: parse_full_table_name is inherited from the
singer-sdk SQLConnector (not part of src/); per section 6 the
database-execution capability can "identify-and-parse a qualified table
name into (catalog?, schema, table)". -/
def parse_full_table_name (fqn : String) : Option String × Option String × String :=
  match splitOnDotAux [] fqn.data with
  | [t] => (none, none, String.mk t)
  | [s, t] => (none, some (String.mk s), String.mk t)
  | [d, s, t] => (some (String.mk d), some (String.mk s), String.mk t)
  | _ => (none, none, fqn)

/-- The schema dict argument of create_empty_table: a properties entry may
be present (an ordered association list of property name and fragment) or
missing. -/
structure SchemaDict where
  properties : Option (List (String × JsonSchema))

/-- create_empty_table (sinks.py 248-285): temp tables are refused; a
schema without properties raises; otherwise one table is registered in the
metadata, with one column per property in order, under the configured
target schema or the parsed schema name, with a primary key constraint
named after the table exactly when the primary key list is nonempty — and
meta.create_all emits the single CREATE TABLE for it. -/
def create_empty_table (cfg : Config) (full_table_name : String)
    (schema : SchemaDict) (primary_keys : List String) (as_temp_table : Bool) :
    Except String (List DdlAction) :=
  if as_temp_table then .error "Temporary tables are not supported."
  else
    match schema.properties with
    | none => .error ("Schema for " ++ full_table_name ++ " does not define properties")
    | some props =>
      let parsed := parse_full_table_name full_table_name
      let table_name := parsed.2.2
      let meta_schema :=
        match cfg.target_schema with
        | some s => some s
        | none => parsed.2.1
      let columns := props.map (fun p => (p.1, to_sql_type cfg p.2))
      let pk :=
        match primary_keys with
        | [] => none
        | _ => some (table_name ++ "_PK", primary_keys)
      .ok [DdlAction.createTable meta_schema table_name columns pk]

/-! ### Staging table names (sinks.py, append_suffix_to_ident and
build_temp_table_name, lines 358-372) -/

/-- Python str.strip: drop whitespace from both ends. -/
def trimChars (l : List Char) : List Char :=
  ((l.dropWhile Char.isWhitespace).reverse.dropWhile Char.isWhitespace).reverse

/-- append_suffix_to_ident (sinks.py 358-363): the identifier is stripped;
a double-quoted identifier gets the suffix inside its quotes, a bare one
gets it appended. -/
def append_suffix_to_ident (ident suffix : String) : String :=
  let i := trimChars ident.data
  if i.head? = some '"' ∧ i.getLast? = some '"' then
    String.mk ('"' :: (((i.drop 1).dropLast ++ suffix.data) ++ ['"']))
  else String.mk (i ++ suffix.data)

/-- Python split(".", 1): split at the first period only, keeping the rest
intact. -/
def splitOnceOnDotAux : List Char → Option (List Char × List Char)
  | [] => none
  | c :: cs =>
    if c = '.' then some ([], cs)
    else
      match splitOnceOnDotAux cs with
      | none => none
      | some (a, b) => some (c :: a, b)

/-- build_temp_table_name (sinks.py 366-372): the suffix lands on the
unqualified table part when the name is schema-qualified. -/
def build_temp_table_name (full_table_name suffix : String) : String :=
  match splitOnceOnDotAux full_table_name.data with
  | some (schema_part, table_part) =>
      String.mk (schema_part ++ ['.']) ++
        append_suffix_to_ident (String.mk table_part) suffix
  | none => append_suffix_to_ident full_table_name suffix

/-! ### BatchLoader execution model (sinks.py, OracleSink.process_batch
lines 392-438, merge_upsert_from_table lines 440-465,
create_temp_table_from_table lines 232-246)

The statements the sink sends through its connection are modelled as
abstract statements, and the external database as an environment saying
which statements it accepts.  The record payloads, conformed schemas and
SQL text are not part of the staging lifecycle and are abstracted into the
statement constructors. -/

/-- One statement executed through the connection. -/
inductive Stmt where
  | prepareDdl
  | createTableAs (tableName fromName : String)
  | dropTable (tableName : String)
  | insertRows (tableName : String)
  | mergeInto (targetName stagingName : String)
deriving DecidableEq

/-- DDL statements; inserts and merges are DML. -/
def isDdlStmt : Stmt → Bool
  | .mergeInto _ _ => false
  | .insertRows _ => false
  | _ => true

/-- The database state visible to the model: the set of existing tables
(DDL effects, which Oracle applies non-transactionally), the committed DML
effects, and the DML effects pending in the open transaction. -/
structure DbState where
  tables : List String
  committedDml : List Stmt
  pendingDml : List Stmt
deriving DecidableEq

def commitPending (st : DbState) : DbState :=
  { st with committedDml := st.committedDml ++ st.pendingDml, pendingDml := [] }

/-- The state effect of one accepted statement. -/
def applyEffect (st : DbState) : Stmt → DbState
  | .dropTable t => { st with tables := st.tables.erase t }
  | .createTableAs t _ =>
      { st with tables := if t ∈ st.tables then st.tables else t :: st.tables }
  | .prepareDdl => st
  | s => { st with pendingDml := st.pendingDml ++ [s] }

/-- Modelled from the spec: the transactional behavior of the external
Oracle connection (section 6, the database-execution capability).  Oracle
executes an implicit COMMIT before every DDL statement, whether or not the
DDL itself then succeeds; a rejected statement leaves an error that
propagates (the Bool result). -/
def execStmt (env : Stmt → Bool) (st : DbState) (s : Stmt) : DbState × Bool :=
  let st1 := if isDdlStmt s then commitPending st else st
  if env s then (applyEffect st1 s, true) else (st1, false)

/-- Run statements in order, stopping at the first rejected one. -/
def execList (env : Stmt → Bool) (st : DbState) : List Stmt → DbState × Bool
  | [] => (st, true)
  | s :: rest =>
    let r := execStmt env st s
    if r.2 then execList env r.1 rest else (r.1, false)

/-- A with connection.begin() block: commit the pending work on success,
roll it back when a statement inside raised. -/
def beginBlock (env : Stmt → Bool) (st : DbState) (stmts : List Stmt) :
    DbState × Bool :=
  let r := execList env st stmts
  if r.2 then (commitPending r.1, true) else ({ r.1 with pendingDml := [] }, false)

/-- create_temp_table_from_table (sinks.py 232-246): the preliminary DROP
TABLE sits in a try block whose failure is swallowed; the CREATE TABLE AS
SELECT then runs in its own block. -/
def create_temp_table_from_table (env : Stmt → Bool) (st : DbState)
    (from_table_name temp_table_name : String) : DbState × Bool :=
  let r1 := beginBlock env st [Stmt.dropTable temp_table_name]
  beginBlock env r1.1 [Stmt.createTableAs temp_table_name from_table_name]

/-- merge_upsert_from_table, execution part (sinks.py 463-465): the MERGE
and the DROP TABLE of the staging table share one begin block, in that
order. -/
def merge_upsert_from_table (env : Stmt → Bool) (st : DbState)
    (from_table_name to_table_name : String) : DbState × Bool :=
  beginBlock env st
    [Stmt.mergeInto to_table_name from_table_name, Stmt.dropTable from_table_name]

/-- process_batch (sinks.py 392-438): with key properties the target is
prepared, the staging table is created from it, populated, and merged back;
without keys the records are inserted directly. -/
def process_batch (env : Stmt → Bool) (st : DbState) (full_table_name : String)
    (has_key_properties : Bool) : DbState × Bool :=
  if has_key_properties then
    let r1 := beginBlock env st [Stmt.prepareDdl]
    if !r1.2 then r1 else
    let tmp := build_temp_table_name full_table_name "_temp"
    let r2 := create_temp_table_from_table env r1.1 full_table_name tmp
    if !r2.2 then r2 else
    let r3 := beginBlock env r2.1 [Stmt.insertRows tmp]
    if !r3.2 then r3 else
    merge_upsert_from_table env r3.1 tmp full_table_name
  else
    beginBlock env st [Stmt.insertRows full_table_name]

/-! ### Properties of the name conformer -/

theorem mem_subNonWordAux {f : Bool} {s : List Nat} :
    ∀ c ∈ subNonWordAux f s, isWordCode c = true := by
  induction s generalizing f with
  | nil => intro c hc; simp [subNonWordAux] at hc
  | cons x xs ih =>
    intro c hc
    rw [subNonWordAux] at hc
    by_cases hx : isWordCode x = true
    · rw [if_pos hx] at hc
      rcases List.mem_cons.mp hc with rfl | hc
      · exact hx
      · exact ih c hc
    · rw [if_neg hx] at hc
      by_cases hf : f = true
      · rw [hf, if_pos rfl] at hc
        exact ih c hc
      · rw [Bool.not_eq_true] at hf
        rw [hf] at hc
        simp only [Bool.false_eq_true, if_false] at hc
        rcases List.mem_cons.mp hc with rfl | hc
        · decide
        · exact ih c hc

theorem mem_subNonWord {s : List Nat} :
    ∀ c ∈ subNonWord s, isWordCode c = true :=
  mem_subNonWordAux

theorem subNonWordAux_eq_self {f : Bool} {s : List Nat}
    (h : ∀ c ∈ s, isWordCode c = true) : subNonWordAux f s = s := by
  induction s generalizing f with
  | nil => rfl
  | cons x xs ih =>
    rw [subNonWordAux, if_pos (h x (List.mem_cons_self _ _)), ih (fun c hc => h c (List.mem_cons_of_mem x hc))]

theorem subNonWord_eq_self {s : List Nat}
    (h : ∀ c ∈ s, isWordCode c = true) : subNonWord s = s :=
  subNonWordAux_eq_self h

theorem word_ne_newline {c : Nat} (h : isWordCode c = true) : (c != 10) = true := by
  simp only [isWordCode, isUpperCode, isLowerCode, isDigitCode, Bool.or_eq_true,
    Bool.and_eq_true, decide_eq_true_eq, beq_iff_eq, bne_iff_ne, ne_eq] at h ⊢
  omega

theorem move_of_word {s : List Nat} (h : ∀ c ∈ s, isWordCode c = true) :
    move_leading_underscores s =
      s.dropWhile (fun d => d == 95) ++ s.takeWhile (fun d => d == 95) := by
  unfold move_leading_underscores
  congr 1
  apply List.takeWhile_eq_self_iff.mpr
  intro c hc
  exact word_ne_newline (h c ((List.dropWhile_sublist _).mem hc))

theorem mem_move {s : List Nat} {c : Nat} (h : c ∈ move_leading_underscores s) :
    c ∈ s := by
  unfold move_leading_underscores at h
  rcases List.mem_append.mp h with h | h
  · exact (List.dropWhile_sublist _).mem ((List.takeWhile_sublist _).mem h)
  · exact (List.takeWhile_sublist _).mem h

theorem mem_camelSub1 {s : List Nat} : ∀ c ∈ camelSub1 s, c ∈ s ∨ c = 95 := by
  induction s using camelSub1.induct with
  | case1 c d e tl h ih =>
    intro x hx
    rw [camelSub1, if_pos h] at hx
    simp only [List.mem_cons, List.mem_append] at hx
    rcases hx with rfl | rfl | rfl | rfl | hx | hx
    · exact Or.inl (List.mem_cons_self _ _)
    · exact Or.inr rfl
    · exact Or.inl (by simp)
    · exact Or.inl (by simp)
    · exact Or.inl (by simp [(List.takeWhile_sublist _).mem hx])
    · rcases ih x hx with hh | hh
      · exact Or.inl (by simp [(List.dropWhile_sublist _).mem hh])
      · exact Or.inr hh
  | case2 c d e tl h ih =>
    intro x hx
    rw [camelSub1, if_neg h] at hx
    rcases List.mem_cons.mp hx with rfl | hx
    · exact Or.inl (List.mem_cons_self _ _)
    · rcases ih x hx with hh | hh
      · exact Or.inl (List.mem_cons_of_mem c hh)
      · exact Or.inr hh
  | case3 s h =>
    intro x hx
    rw [camelSub1.eq_def] at hx
    split at hx
    · exact absurd rfl (h _ _ _ _)
    · exact Or.inl hx

theorem camelSub1_eq_self {s : List Nat}
    (h : ∀ c ∈ s, isUpperCode c = false) : camelSub1 s = s := by
  induction s using camelSub1.induct with
  | case1 c d e tl hc ih =>
    exfalso
    simp only [Bool.and_eq_true] at hc
    have := h d (by simp)
    rw [hc.1.2] at this
    exact Bool.true_eq_false.mp this
  | case2 c d e tl hc ih =>
    rw [camelSub1, if_neg hc, ih (fun x hx => h x (List.mem_cons_of_mem c hx))]
  | case3 s hs =>
    rw [camelSub1.eq_def]
    split
    · exact absurd rfl (hs _ _ _ _)
    · rfl

theorem camelSub1_head (s : List Nat) : (camelSub1 s).head? = s.head? := by
  induction s using camelSub1.induct with
  | case1 c d e tl hc ih => rw [camelSub1, if_pos hc]; rfl
  | case2 c d e tl hc ih => rw [camelSub1, if_neg hc]; rfl
  | case3 s hs =>
    rw [camelSub1.eq_def]
    split
    · exact absurd rfl (hs _ _ _ _)
    · rfl

theorem mem_camelSub2 {s : List Nat} : ∀ c ∈ camelSub2 s, c ∈ s ∨ c = 95 := by
  induction s using camelSub2.induct with
  | case1 c d tl h ih =>
    intro x hx
    rw [camelSub2, if_pos h] at hx
    simp only [List.mem_cons] at hx
    rcases hx with rfl | rfl | rfl | hx
    · exact Or.inl (List.mem_cons_self _ _)
    · exact Or.inr rfl
    · exact Or.inl (by simp)
    · rcases ih x hx with hh | hh
      · exact Or.inl (by simp [hh])
      · exact Or.inr hh
  | case2 c d tl h ih =>
    intro x hx
    rw [camelSub2, if_neg h] at hx
    rcases List.mem_cons.mp hx with rfl | hx
    · exact Or.inl (List.mem_cons_self _ _)
    · rcases ih x hx with hh | hh
      · exact Or.inl (List.mem_cons_of_mem c hh)
      · exact Or.inr hh
  | case3 s hs =>
    intro x hx
    rw [camelSub2.eq_def] at hx
    split at hx
    · exact absurd rfl (hs _ _ _)
    · exact Or.inl hx

theorem camelSub2_eq_self {s : List Nat}
    (h : ∀ c ∈ s, isUpperCode c = false) : camelSub2 s = s := by
  induction s using camelSub2.induct with
  | case1 c d tl hc ih =>
    exfalso
    simp only [Bool.and_eq_true] at hc
    have := h d (by simp)
    rw [hc.2] at this
    exact Bool.true_eq_false.mp this
  | case2 c d tl hc ih =>
    rw [camelSub2, if_neg hc, ih (fun x hx => h x (List.mem_cons_of_mem c hx))]
  | case3 s hs =>
    rw [camelSub2.eq_def]
    split
    · exact absurd rfl (hs _ _ _)
    · rfl

theorem camelSub2_head (s : List Nat) : (camelSub2 s).head? = s.head? := by
  induction s using camelSub2.induct with
  | case1 c d tl hc ih => rw [camelSub2, if_pos hc]; rfl
  | case2 c d tl hc ih => rw [camelSub2, if_neg hc]; rfl
  | case3 s hs =>
    rw [camelSub2.eq_def]
    split
    · exact absurd rfl (hs _ _ _)
    · rfl

theorem lowerCode_eq_self {c : Nat} (h : isUpperCode c = false) : lowerCode c = c := by
  simp [lowerCode, h]

theorem lowerCode_class {c : Nat} (h : isWordCode c = true) :
    isLowerCode (lowerCode c) = true ∨ isDigitCode (lowerCode c) = true ∨
      lowerCode c = 95 := by
  by_cases hu : isUpperCode c = true
  · left
    rw [lowerCode, if_pos hu]
    simp only [isUpperCode, Bool.and_eq_true, decide_eq_true_eq] at hu
    simp only [isLowerCode, Bool.and_eq_true, decide_eq_true_eq]
    omega
  · rw [lowerCode, if_neg hu]
    simp only [isWordCode, Bool.or_eq_true, beq_iff_eq] at h
    rcases h with ((h | h) | h) | h
    · exact absurd h hu
    · exact Or.inl h
    · exact Or.inr (Or.inl h)
    · exact Or.inr (Or.inr h)

theorem lowerCode_not_upper (c : Nat) : isUpperCode (lowerCode c) = false := by
  by_cases hu : isUpperCode c = true
  · rw [lowerCode, if_pos hu]
    simp only [isUpperCode, Bool.and_eq_true, decide_eq_true_eq] at hu
    rw [Bool.eq_false_iff]
    intro hcon
    simp only [isUpperCode, Bool.and_eq_true, decide_eq_true_eq] at hcon
    omega
  · rw [lowerCode, if_neg hu]
    simpa using hu

theorem lowerCode_eq_95 {c : Nat} (h : lowerCode c = 95) : c = 95 := by
  rw [lowerCode] at h
  split at h
  · rename_i hs
    simp only [isUpperCode, Bool.and_eq_true, decide_eq_true_eq] at hs
    omega
  · exact h

theorem lowerCode_not_digit {c : Nat} (h : isDigitCode c = false) :
    isDigitCode (lowerCode c) = false := by
  rw [lowerCode]
  split
  · rename_i hs
    simp only [isUpperCode, Bool.and_eq_true, decide_eq_true_eq] at hs
    simp only [isDigitCode, Bool.and_eq_false_iff, decide_eq_false_iff_not]
    omega
  · exact h

theorem mem_snakecase {s : List Nat} {c : Nat} (h : c ∈ snakecase s) :
    (∃ d, d ∈ s ∧ c = lowerCode d) ∨ c = 95 := by
  unfold snakecase at h
  rcases List.mem_map.mp h with ⟨d, hd, rfl⟩
  rcases mem_camelSub2 d hd with hd2 | rfl
  · rcases mem_camelSub1 d hd2 with hd1 | rfl
    · exact Or.inl ⟨d, hd1, rfl⟩
    · exact Or.inr (by decide)
  · exact Or.inr (by decide)

theorem snakecase_eq_self {s : List Nat}
    (h : ∀ c ∈ s, isUpperCode c = false) : snakecase s = s := by
  unfold snakecase
  rw [camelSub1_eq_self h, camelSub2_eq_self h]
  have hid : ∀ c ∈ s, lowerCode c = id c := fun c hc => lowerCode_eq_self (h c hc)
  rw [List.map_congr_left hid, List.map_id]

theorem snakecase_head (s : List Nat) :
    (snakecase s).head? = s.head?.map lowerCode := by
  unfold snakecase
  rw [List.head?_map, camelSub2_head, camelSub1_head]

/-- The shape of conform_name as one equation. -/
theorem conform_name_eq (s : List Nat) :
    conform_name s =
      match snakecase (move_leading_underscores (subNonWord s)) with
      | [] => []
      | c :: t => if isDigitCode c then 110 :: c :: t else c :: t := rfl

theorem mem_pipeline {s : List Nat} :
    ∀ c ∈ snakecase (move_leading_underscores (subNonWord s)),
      isLowerCode c = true ∨ isDigitCode c = true ∨ c = 95 := by
  intro c hc
  rcases mem_snakecase hc with ⟨d, hd, rfl⟩ | rfl
  · exact lowerCode_class (mem_subNonWord d (mem_move hd))
  · exact Or.inr (Or.inr rfl)

theorem all95_of_head95 {s : List Nat}
    (hh : (snakecase (move_leading_underscores (subNonWord s))).head? = some 95) :
    ∀ d ∈ snakecase (move_leading_underscores (subNonWord s)), d = 95 := by
  have hword : ∀ c ∈ subNonWord s, isWordCode c = true := fun c hc => mem_subNonWord c hc
  rw [snakecase_head] at hh
  cases hmh : (move_leading_underscores (subNonWord s)).head? with
  | none => rw [hmh] at hh; simp at hh
  | some b =>
    rw [hmh] at hh
    simp only [Option.map_some', Option.some.injEq] at hh
    have hb : b = 95 := lowerCode_eq_95 hh
    subst hb
    have hall : ∀ c ∈ move_leading_underscores (subNonWord s), c = 95 := by
      rw [move_of_word hword] at hmh ⊢
      cases hd : (subNonWord s).dropWhile (fun d => d == 95) with
      | nil =>
        intro c hc
        rw [List.nil_append] at hc
        have := List.mem_takeWhile_imp hc
        simpa using this
      | cons x xs =>
        exfalso
        rw [hd, List.cons_append, List.head?_cons, Option.some.injEq] at hmh
        have hnot := List.head?_dropWhile_not (fun d => d == 95) (subNonWord s)
        rw [hd, List.head?_cons] at hnot
        simp only [Option.mem_def, Option.some.injEq, forall_eq] at hnot
        rw [hmh] at hnot
        simp at hnot
    intro d hd
    rcases mem_snakecase hd with ⟨e, he, rfl⟩ | rfl
    · rw [hall e he]
      decide
    · rfl

/-- The two shapes conform_name can take, with the pipeline value
exposed. -/
theorem conform_name_cases (s : List Nat) :
    (snakecase (move_leading_underscores (subNonWord s)) = [] ∧ conform_name s = []) ∨
    (∃ c t, snakecase (move_leading_underscores (subNonWord s)) = c :: t ∧
      conform_name s = if isDigitCode c then 110 :: c :: t else c :: t) := by
  cases h : snakecase (move_leading_underscores (subNonWord s)) with
  | nil =>
    refine Or.inl ⟨rfl, ?_⟩
    unfold conform_name
    rw [h]
  | cons c t =>
    refine Or.inr ⟨c, t, rfl, ?_⟩
    unfold conform_name
    rw [h]

/-- What conform_name guarantees of its output: only lower case letters,
digits and underscores; a leading underscore only on an all-underscore
name; never a leading digit. -/
theorem conform_name_conformed (s : List Nat) :
    (∀ c ∈ conform_name s, isLowerCode c = true ∨ isDigitCode c = true ∨ c = 95) ∧
    ((conform_name s).head? = some 95 → ∀ d ∈ conform_name s, d = 95) ∧
    (∀ c, (conform_name s).head? = some c → isDigitCode c = false) := by
  rcases conform_name_cases s with ⟨h, hc⟩ | ⟨c, t, h, hc⟩
  · rw [hc]
    exact ⟨by simp, by simp, by simp⟩
  · have hmem : ∀ x ∈ c :: t, isLowerCode x = true ∨ isDigitCode x = true ∨ x = 95 := by
      intro x hx
      exact mem_pipeline x (by rw [h]; exact hx)
    rw [hc]
    by_cases hdig : isDigitCode c = true
    · rw [if_pos hdig]
      refine ⟨?_, ?_, ?_⟩
      · intro x hx
        rcases List.mem_cons.mp hx with rfl | hx
        · exact Or.inl (by decide)
        · exact hmem x hx
      · intro hh
        exfalso
        rw [List.head?_cons, Option.some.injEq] at hh
        omega
      · intro x hx
        rw [List.head?_cons, Option.some.injEq] at hx
        subst hx
        decide
    · rw [if_neg hdig]
      refine ⟨hmem, ?_, ?_⟩
      · intro hh
        have := all95_of_head95 (s := s) (by rw [h]; exact hh)
        intro d hd
        exact this d (by rw [h]; exact hd)
      · intro x hx
        rw [List.head?_cons, Option.some.injEq] at hx
        subst hx
        simpa using hdig

/-- A list satisfying the conform_name output invariants is a fixed point
of conform_name. -/
theorem conform_name_fixed {y : List Nat}
    (h1 : ∀ c ∈ y, isLowerCode c = true ∨ isDigitCode c = true ∨ c = 95)
    (h2 : y.head? = some 95 → ∀ d ∈ y, d = 95)
    (h3 : ∀ c, y.head? = some c → isDigitCode c = false) :
    conform_name y = y := by
  have hword : ∀ c ∈ y, isWordCode c = true := by
    intro c hc
    rcases h1 c hc with h | h | h
    all_goals simp only [isWordCode, isUpperCode, isLowerCode, isDigitCode, Bool.or_eq_true,
      Bool.and_eq_true, decide_eq_true_eq, beq_iff_eq] at h ⊢
    all_goals omega
  have hnoupper : ∀ c ∈ y, isUpperCode c = false := by
    intro c hc
    rcases h1 c hc with h | h | h
    all_goals simp only [isUpperCode, isLowerCode, isDigitCode, Bool.and_eq_true,
      Bool.and_eq_false_iff, decide_eq_true_eq, decide_eq_false_iff_not] at h ⊢
    all_goals omega
  have hsub : subNonWord y = y := subNonWord_eq_self hword
  have hmove : move_leading_underscores y = y := by
    rw [move_of_word hword]
    cases hy : y with
    | nil => rfl
    | cons c t =>
      by_cases hc95 : c = 95
      · subst hc95
        have hall : ∀ d ∈ (95 : Nat) :: t, d = 95 := by
          rw [← hy]
          exact h2 (by rw [hy]; rfl)
        have htk : ((95 : Nat) :: t).takeWhile (fun d => d == 95) = 95 :: t := by
          apply List.takeWhile_eq_self_iff.mpr
          intro x hx
          simpa using hall x hx
        have hdr : ((95 : Nat) :: t).dropWhile (fun d => d == 95) = [] := by
          apply List.dropWhile_eq_nil_iff.mpr
          intro x hx
          simpa using hall x hx
        rw [htk, hdr, List.nil_append]
      · have hdr : (c :: t).dropWhile (fun d => d == 95) = c :: t := by
          rw [List.dropWhile_cons]
          simp [hc95]
        have htk : (c :: t).takeWhile (fun d => d == 95) = [] := by
          rw [List.takeWhile_cons]
          simp [hc95]
        rw [hdr, htk, List.append_nil]
  have hsnake : snakecase y = y := snakecase_eq_self hnoupper
  have hpipe : snakecase (move_leading_underscores (subNonWord y)) = y := by
    rw [hsub, hmove, hsnake]
  rcases conform_name_cases y with ⟨h, hc⟩ | ⟨c, t, h, hc⟩
  · rw [hpipe] at h
    rw [hc, h]
  · rw [hpipe] at h
    have hd : isDigitCode c = false := h3 c (by rw [h]; rfl)
    rw [hc, if_neg (by simp [hd])]
    exact h.symm

/-- C5: conform_name is idempotent — conforming an already conformed name
changes nothing. -/
theorem conform_name_idempotent (s : List Nat) :
    conform_name (conform_name s) = conform_name s := by
  obtain ⟨h1, h2, h3⟩ := conform_name_conformed s
  exact conform_name_fixed h1 h2 h3

/-- C10: every character of a conformed name is a lower case ASCII letter,
a digit, or the underscore (code 95); upper case letters, spaces, and all
other characters never occur. -/
theorem conform_name_chars (s : List Nat) (c : Nat) (h : c ∈ conform_name s) :
    isLowerCode c = true ∨ isDigitCode c = true ∨ c = 95 :=
  (conform_name_conformed s).1 c h

/-- Witness for C10 at the input "A" (code 65): the output is "a"
(code 97), a lower case letter. -/
theorem conform_name_chars_witness :
    (97 ∈ conform_name [65]) ∧
      (isLowerCode 97 = true ∨ isDigitCode 97 = true ∨ 97 = 95) := by
  have hmem : 97 ∈ conform_name [65] := by
    simp [conform_name, subNonWord, subNonWordAux, move_leading_underscores, snakecase,
      camelSub1, camelSub2, lowerCode, isWordCode, isUpperCode, isLowerCode, isDigitCode]
  exact ⟨hmem, conform_name_chars [65] 97 hmem⟩

/-! ### Properties of the type merger -/

/-- Merging two bounded text descriptors yields the wider one. -/
theorem merge_varchar (la lb : Nat) :
    merge_sql_types [SQLType.varchar la, SQLType.varchar lb] =
      .ok (SQLType.varchar (max la lb)) := by
  by_cases hle : lb ≤ la
  · have hmax : max la lb = la := Nat.max_eq_left hle
    simp [merge_sql_types, _sort_types, insertByCap, capGE, capWithin, typeClassRank,
      getLength, loopOptions, mergeOption, isTextLike, hle, hmax]
  · have hmax : max la lb = lb := Nat.max_eq_right (Nat.le_of_not_le hle)
    simp [merge_sql_types, _sort_types, insertByCap, capGE, capWithin, typeClassRank,
      getLength, loopOptions, mergeOption, isTextLike, hle, hmax, Nat.le_of_not_le hle]

/-- Merging the unlimited CLOB with bounded text, in either order, yields
CLOB under the spec-modelled precedence sort. -/
theorem merge_clob (la : Nat) :
    merge_sql_types [SQLType.clob, SQLType.varchar la] = .ok SQLType.clob ∧
    merge_sql_types [SQLType.varchar la, SQLType.clob] = .ok SQLType.clob ∧
    merge_sql_types [SQLType.clob, SQLType.clob] = .ok SQLType.clob := by
  refine ⟨?_, ?_, ?_⟩
  all_goals
    simp [merge_sql_types, _sort_types, insertByCap, capGE, capWithin, typeClassRank,
      getLength, loopOptions, mergeOption, isTextLike]

/-- C3: over the text descriptors this connector produces (bounded VARCHAR
and unlimited CLOB), a pairwise merge returns the text descriptor of the
maximal length, unlimited text absorbs any text descriptor, and the result
does not depend on the argument order. -/
theorem merge_sql_types_text (la lb : Nat) :
    merge_sql_types [SQLType.varchar la, SQLType.varchar lb] =
        .ok (SQLType.varchar (max la lb)) ∧
    merge_sql_types [SQLType.clob, SQLType.varchar la] = .ok SQLType.clob ∧
    merge_sql_types [SQLType.varchar la, SQLType.clob] = .ok SQLType.clob ∧
    merge_sql_types [SQLType.clob, SQLType.clob] = .ok SQLType.clob ∧
    merge_sql_types [SQLType.varchar la, SQLType.varchar lb] =
      merge_sql_types [SQLType.varchar lb, SQLType.varchar la] ∧
    merge_sql_types [SQLType.clob, SQLType.varchar la] =
      merge_sql_types [SQLType.varchar la, SQLType.clob] := by
  obtain ⟨h1, h2, h3⟩ := merge_clob la
  refine ⟨merge_varchar la lb, h1, h2, h3, ?_, ?_⟩
  · rw [merge_varchar la lb, merge_varchar lb la, Nat.max_comm]
  · rw [h1, h2]

/-- C9 counterexample: merging the integer and timestamp descriptors, two
different non-text families with no common representation, does not raise —
the integer descriptor is returned. -/
theorem merge_sql_types_int_timestamp :
    merge_sql_types [SQLType.integer, SQLType.timestamp] = .ok SQLType.integer ∧
    ∀ e, merge_sql_types [SQLType.integer, SQLType.timestamp] ≠ .error e := by
  have h : merge_sql_types [SQLType.integer, SQLType.timestamp] = .ok SQLType.integer := by
    simp [merge_sql_types, _sort_types, insertByCap, capGE, capWithin, typeClassRank,
      getLength, loopOptions, mergeOption, isTextLike, strType]
  exact ⟨h, fun e he => by rw [h] at he; exact Except.noConfusion he⟩

/-- C9 amended: merge_sql_types raises on an empty list and returns the
element of a singleton, but for two descriptors of different non-text
families it does not raise: the loop falls through to the head of the
original argument list and returns it. -/
theorem merge_sql_types_error_cases (a b : SQLType)
    (ha : isTextLike a = false) (hb : isTextLike b = false)
    (hne : strType a ≠ strType b) :
    (∃ e, merge_sql_types ([] : List SQLType) = .error e) ∧
    (∀ t : SQLType, merge_sql_types [t] = .ok t) ∧
    merge_sql_types [a, b] = .ok a := by
  refine ⟨⟨"Expected at least one member in sql_types argument.",
    by simp [merge_sql_types]⟩, fun t => by simp [merge_sql_types], ?_⟩
  have hba : (strType b == strType a) = false := by
    simp only [beq_eq_false_iff_ne, ne_eq]
    exact fun hcon => hne hcon.symm
  have haa : (strType a == strType a) = true := by simp
  by_cases hc : capGE a b = true
  · simp [merge_sql_types, _sort_types, insertByCap, hc, loopOptions, mergeOption,
      ha, hb, haa, hba]
  · simp [merge_sql_types, _sort_types, insertByCap, hc, loopOptions, mergeOption,
      ha, hb, haa, hba]

/-- Witness for C9 amended at integer and timestamp. -/
theorem merge_sql_types_error_cases_witness :
    (isTextLike SQLType.integer = false ∧ isTextLike SQLType.timestamp = false ∧
      strType SQLType.integer ≠ strType SQLType.timestamp) ∧
    ((∃ e, merge_sql_types ([] : List SQLType) = .error e) ∧
      (∀ t : SQLType, merge_sql_types [t] = .ok t) ∧
      merge_sql_types [SQLType.integer, SQLType.timestamp] = .ok SQLType.integer) :=
  ⟨⟨by decide, by decide, by decide⟩,
    merge_sql_types_error_cases SQLType.integer SQLType.timestamp
      (by decide) (by decide) (by decide)⟩

/-! ### Properties of column adaptation and table creation -/

/-- C4: adapting an existing bounded-text column of length 50: a desired
length of 30 needs no ALTER (the merged type keeps the existing family and
first word); a desired length of 100 with alteration allowed produces
exactly one ALTER MODIFY to VARCHAR(100); with alteration disallowed the
same reconciliation fails instead of altering. -/
theorem adapt_column_type_widening (tbl col : String) :
    _adapt_column_type true tbl col (SQLType.varchar 50) (SQLType.varchar 30) = .ok [] ∧
    _adapt_column_type true tbl col (SQLType.varchar 50) (SQLType.varchar 100) =
      .ok [DdlAction.alterModify tbl col (SQLType.varchar 100)] ∧
    (∃ e, _adapt_column_type false tbl col (SQLType.varchar 50) (SQLType.varchar 100) =
      .error e) := by
  have hm1 : merge_sql_types [SQLType.varchar 50, SQLType.varchar 30] =
      .ok (SQLType.varchar 50) := merge_varchar 50 30
  have hm2 : merge_sql_types [SQLType.varchar 50, SQLType.varchar 100] =
      .ok (SQLType.varchar 100) := merge_varchar 50 100
  have hs1 : (strType (SQLType.varchar 30) == strType (SQLType.varchar 50)) = false := by
    decide
  have hs2 : (strType (SQLType.varchar 100) == strType (SQLType.varchar 50)) = false := by
    decide
  have hf1 : (firstWord (strType (SQLType.varchar 50)) ==
      firstWord (strType (SQLType.varchar 50))) = true := by decide
  have hf2 : (firstWord (strType (SQLType.varchar 100)) ==
      firstWord (strType (SQLType.varchar 50))) = false := by decide
  refine ⟨?_, ?_, ?_⟩
  · simp [_adapt_column_type, hs1, hm1, hf1]
  · simp [_adapt_column_type, hs2, hm2, hf2]
  · refine ⟨"Altering columns is not supported. Could not convert column " ++
      tbl ++ "." ++ col ++ " from " ++ strType (SQLType.varchar 50) ++
      " to " ++ strType (SQLType.varchar 100) ++ ".", ?_⟩
    simp [_adapt_column_type, hs2, hm2, hf2]

/-- C7 counterexample: a fragment recognized by none of the type rules (the
single tag null) maps to VARCHAR(4000), the bounded fallback, which is not
the unlimited CLOB descriptor. -/
theorem to_sql_type_fallback_not_clob :
    to_sql_type ⟨false, none, false⟩ (JsonSchema.mk (.one "null") none none []) =
      SQLType.varchar 4000 ∧
    SQLType.varchar 4000 ≠ SQLType.clob := by
  exact ⟨by decide, by decide⟩

/-- C7 amended: every fragment whose type checks recognize none of string,
integer, number, boolean, object or array falls back to the bounded
VARCHAR(4000) descriptor rather than failing. -/
theorem to_sql_type_fallback (cfg : Config) (js : JsonSchema)
    (hs : _jsonschema_type_check js ["string"] = false)
    (hi : _jsonschema_type_check js ["integer"] = false)
    (hn : _jsonschema_type_check js ["number"] = false)
    (hb : _jsonschema_type_check js ["boolean"] = false)
    (ho : _jsonschema_type_check js ["object"] = false)
    (ha : _jsonschema_type_check js ["array"] = false) :
    to_sql_type cfg js = SQLType.varchar 4000 := by
  simp [to_sql_type, hs, hi, hn, hb, ho, ha]

/-- Witness for C7 amended at the null fragment. -/
theorem to_sql_type_fallback_witness :
    (_jsonschema_type_check (JsonSchema.mk (.one "null") none none []) ["string"] = false ∧
      _jsonschema_type_check (JsonSchema.mk (.one "null") none none []) ["integer"] = false ∧
      _jsonschema_type_check (JsonSchema.mk (.one "null") none none []) ["number"] = false ∧
      _jsonschema_type_check (JsonSchema.mk (.one "null") none none []) ["boolean"] = false ∧
      _jsonschema_type_check (JsonSchema.mk (.one "null") none none []) ["object"] = false ∧
      _jsonschema_type_check (JsonSchema.mk (.one "null") none none []) ["array"] = false) ∧
    to_sql_type ⟨true, none, false⟩ (JsonSchema.mk (.one "null") none none []) =
      SQLType.varchar 4000 :=
  ⟨⟨by decide, by decide, by decide, by decide, by decide, by decide⟩,
    to_sql_type_fallback ⟨true, none, false⟩ (JsonSchema.mk (.one "null") none none [])
      (by decide) (by decide) (by decide) (by decide) (by decide) (by decide)⟩

/-- C8 counterexample: the boolean fragment maps to VARCHAR(1), a
one-character variable width text descriptor — not the fixed width CHAR(1)
family named by the claim, and not a native boolean. -/
theorem to_sql_type_boolean_not_char :
    to_sql_type ⟨false, none, false⟩ (JsonSchema.mk (.one "boolean") none none []) =
      SQLType.varchar 1 ∧
    SQLType.varchar 1 ≠ SQLType.char 1 ∧
    SQLType.varchar 1 ≠ SQLType.boolean := by
  exact ⟨by decide, by decide, by decide⟩

/-- C8 amended: every fragment whose type check resolves to boolean (after
the string, integer and number checks that precede it have failed) maps to
VARCHAR(1), the one-character variable width text descriptor, and never to
a native boolean or a fixed width CHAR. -/
theorem to_sql_type_boolean (cfg : Config) (js : JsonSchema)
    (hs : _jsonschema_type_check js ["string"] = false)
    (hi : _jsonschema_type_check js ["integer"] = false)
    (hn : _jsonschema_type_check js ["number"] = false)
    (hb : _jsonschema_type_check js ["boolean"] = true) :
    to_sql_type cfg js = SQLType.varchar 1 ∧
    to_sql_type cfg js ≠ SQLType.boolean ∧
    to_sql_type cfg js ≠ SQLType.char 1 := by
  have h : to_sql_type cfg js = SQLType.varchar 1 := by
    simp [to_sql_type, hs, hi, hn, hb]
  exact ⟨h, by rw [h]; decide, by rw [h]; decide⟩

/-- Witness for C8 amended at the boolean fragment. -/
theorem to_sql_type_boolean_witness :
    (_jsonschema_type_check (JsonSchema.mk (.one "boolean") none none []) ["string"] = false ∧
      _jsonschema_type_check (JsonSchema.mk (.one "boolean") none none []) ["integer"] = false ∧
      _jsonschema_type_check (JsonSchema.mk (.one "boolean") none none []) ["number"] = false ∧
      _jsonschema_type_check (JsonSchema.mk (.one "boolean") none none []) ["boolean"] = true) ∧
    (to_sql_type ⟨true, none, false⟩ (JsonSchema.mk (.one "boolean") none none []) =
        SQLType.varchar 1 ∧
      to_sql_type ⟨true, none, false⟩ (JsonSchema.mk (.one "boolean") none none []) ≠
        SQLType.boolean ∧
      to_sql_type ⟨true, none, false⟩ (JsonSchema.mk (.one "boolean") none none []) ≠
        SQLType.char 1) :=
  ⟨⟨by decide, by decide, by decide, by decide⟩,
    to_sql_type_boolean ⟨true, none, false⟩ (JsonSchema.mk (.one "boolean") none none [])
      (by decide) (by decide) (by decide) (by decide)⟩

/-- C6: creating a missing target table for a desired schema with a
declared primary key issues exactly one CREATE TABLE action — no other DDL
— whose column list covers every desired column in order and whose primary
key constraint is named after the table with the _PK suffix. -/
theorem create_empty_table_single_create (cfg : Config) (fqn : String)
    (props : List (String × JsonSchema)) (pks : List String) (hpk : pks ≠ []) :
    ∃ ms cols,
      create_empty_table cfg fqn ⟨some props⟩ pks false =
        .ok [DdlAction.createTable ms (parse_full_table_name fqn).2.2 cols
          (some ((parse_full_table_name fqn).2.2 ++ "_PK", pks))] ∧
      cols.map Prod.fst = props.map Prod.fst := by
  refine ⟨(match cfg.target_schema with
      | some s => some s
      | none => (parse_full_table_name fqn).2.1),
    props.map (fun p => (p.1, to_sql_type cfg p.2)), ?_, ?_⟩
  · rw [create_empty_table]
    cases pks with
    | nil => exact absurd rfl hpk
    | cons k ks => rfl
  · rw [List.map_map]
    rfl

/-- Witness for C6 at a two-column orders schema keyed by id. -/
theorem create_empty_table_single_create_witness :
    ((["id"] : List String) ≠ []) ∧
    (∃ ms cols,
      create_empty_table ⟨false, none, false⟩ "orders"
          ⟨some [("id", JsonSchema.mk (.one "integer") none none []),
                 ("total", JsonSchema.mk (.one "number") none none [])]⟩ ["id"] false =
        .ok [DdlAction.createTable ms (parse_full_table_name "orders").2.2 cols
          (some ((parse_full_table_name "orders").2.2 ++ "_PK", ["id"]))] ∧
      cols.map Prod.fst =
        [("id", JsonSchema.mk (.one "integer") none none []),
         ("total", JsonSchema.mk (.one "number") none none [])].map Prod.fst) :=
  ⟨by decide,
    create_empty_table_single_create ⟨false, none, false⟩ "orders"
      [("id", JsonSchema.mk (.one "integer") none none []),
       ("total", JsonSchema.mk (.one "number") none none [])] ["id"] (by decide)⟩

/-! ### Properties of the batch execution model -/

/-- C1 counterexample: a keyed batch whose MERGE statement is rejected by
the database ends with the staging table still present — the DROP TABLE
that follows the merge inside the same block is never reached, and no other
cleanup runs in that batch. -/
theorem process_batch_merge_failure_keeps_staging :
    ((process_batch
        (fun s => match s with | Stmt.mergeInto _ _ => false | _ => true)
        ⟨[], [], []⟩ "orders" true).1.tables = ["orders_temp"]) ∧
    ((process_batch
        (fun s => match s with | Stmt.mergeInto _ _ => false | _ => true)
        ⟨[], [], []⟩ "orders" true).2 = false) := by
  exact ⟨by decide, by decide⟩

theorem execStmt_tables_nodup {env : Stmt → Bool} {st : DbState} {s : Stmt}
    (h : st.tables.Nodup) : ((execStmt env st s).1).tables.Nodup := by
  rw [execStmt]
  have hc : (if isDdlStmt s then commitPending st else st).tables = st.tables := by
    by_cases hd : isDdlStmt s = true
    · rw [if_pos hd]; rfl
    · rw [if_neg hd]
  by_cases he : env s = true
  · rw [if_pos he]
    cases s
    all_goals simp only [applyEffect, hc]
    · exact h
    · rename_i t f
      by_cases ht : t ∈ st.tables
      · rw [if_pos ht]
        exact h
      · rw [if_neg ht]
        exact List.nodup_cons.mpr ⟨ht, h⟩
    · rw [hc] at *
      exact h.erase _
    · exact h
    · exact h
  · rw [if_neg he]
    rw [hc]
    exact h

theorem execList_tables_nodup {env : Stmt → Bool} {st : DbState} {l : List Stmt}
    (h : st.tables.Nodup) : ((execList env st l).1).tables.Nodup := by
  induction l generalizing st with
  | nil => exact h
  | cons s rest ih =>
    rw [execList]
    by_cases he : (execStmt env st s).2 = true
    · rw [if_pos he]
      exact ih (execStmt_tables_nodup h)
    · rw [if_neg he]
      exact execStmt_tables_nodup h

theorem beginBlock_tables_nodup {env : Stmt → Bool} {st : DbState} {l : List Stmt}
    (h : st.tables.Nodup) : ((beginBlock env st l).1).tables.Nodup := by
  rw [beginBlock]
  by_cases he : (execList env st l).2 = true
  · rw [if_pos he]
    exact execList_tables_nodup h
  · rw [if_neg he]
    exact execList_tables_nodup h

/-- C1 amended: on the success path of a keyed batch the staging table is
gone by the end of batch processing; but on the merge failure path the drop
statement is never executed, so the staging table survives the batch —
cleanup is only the next batch's preliminary drop. -/
theorem process_batch_staging_lifecycle (env : Stmt → Bool) (st : DbState)
    (tbl : String) (hnd : st.tables.Nodup) :
    ((process_batch env st tbl true).2 = true →
      build_temp_table_name tbl "_temp" ∉ (process_batch env st tbl true).1.tables) ∧
    (env (Stmt.mergeInto tbl (build_temp_table_name tbl "_temp")) = false →
      env Stmt.prepareDdl = true →
      env (Stmt.createTableAs (build_temp_table_name tbl "_temp") tbl) = true →
      env (Stmt.insertRows (build_temp_table_name tbl "_temp")) = true →
      build_temp_table_name tbl "_temp" ∈ (process_batch env st tbl true).1.tables) := by
  set tmp := build_temp_table_name tbl "_temp" with htmp
  cases hp : env Stmt.prepareDdl with
  | false =>
    constructor
    · intro hsucc
      exfalso
      simp [process_batch, beginBlock, execList, execStmt, isDdlStmt, hp] at hsucc
    · intro _ hp2
      exact absurd hp2 (by simp)
  | true =>
    cases hc : env (Stmt.createTableAs tmp tbl) with
    | false =>
      constructor
      · intro hsucc
        exfalso
        simp [process_batch, create_temp_table_from_table, beginBlock, execList, execStmt,
          isDdlStmt, applyEffect, commitPending, hp, hc] at hsucc
      · intro _ _ hc2
        exact absurd hc2 (by simp)
    | true =>
      cases hi : env (Stmt.insertRows tmp) with
      | false =>
        constructor
        · intro hsucc
          exfalso
          simp [process_batch, create_temp_table_from_table, beginBlock, execList, execStmt,
            isDdlStmt, applyEffect, commitPending, hp, hc, hi] at hsucc
        · intro _ _ _ hi2
          exact absurd hi2 (by simp)
      | true =>
        cases hm : env (Stmt.mergeInto tbl tmp) with
        | false =>
          constructor
          · intro hsucc
            exfalso
            simp [process_batch, create_temp_table_from_table, merge_upsert_from_table,
              beginBlock, execList, execStmt, isDdlStmt, applyEffect, commitPending,
              hp, hc, hi, hm] at hsucc
          · intro _ _ _ _
            by_cases hd : env (Stmt.dropTable tmp) = true
            · by_cases hin : tmp ∈ st.tables.erase tmp
              · have hgoal : (process_batch env st tbl true).1.tables =
                    st.tables.erase tmp := by
                  simp [process_batch, create_temp_table_from_table,
                    merge_upsert_from_table, beginBlock, execList, execStmt, isDdlStmt,
                    applyEffect, commitPending, hp, hc, hi, hm, hd, hin, ← htmp]
                rw [hgoal]
                exact hin
              · have hgoal : (process_batch env st tbl true).1.tables =
                    tmp :: st.tables.erase tmp := by
                  simp [process_batch, create_temp_table_from_table,
                    merge_upsert_from_table, beginBlock, execList, execStmt, isDdlStmt,
                    applyEffect, commitPending, hp, hc, hi, hm, hd, hin, ← htmp]
                rw [hgoal]
                exact (List.mem_cons_self _ _)
            · simp only [Bool.not_eq_true] at hd
              by_cases hin : tmp ∈ st.tables
              · have hgoal : (process_batch env st tbl true).1.tables = st.tables := by
                  simp [process_batch, create_temp_table_from_table,
                    merge_upsert_from_table, beginBlock, execList, execStmt, isDdlStmt,
                    applyEffect, commitPending, hp, hc, hi, hm, hd, hin, ← htmp]
                rw [hgoal]
                exact hin
              · have hgoal : (process_batch env st tbl true).1.tables =
                    tmp :: st.tables := by
                  simp [process_batch, create_temp_table_from_table,
                    merge_upsert_from_table, beginBlock, execList, execStmt, isDdlStmt,
                    applyEffect, commitPending, hp, hc, hi, hm, hd, hin, ← htmp]
                rw [hgoal]
                exact (List.mem_cons_self _ _)
        | true =>
          constructor
          · intro hsucc
            by_cases hd : env (Stmt.dropTable tmp) = true
            · by_cases hin : tmp ∈ st.tables.erase tmp
              · exact absurd rfl ((hnd.mem_erase_iff).1 hin).1
              · have hgoal : (process_batch env st tbl true).1.tables =
                    st.tables.erase tmp := by
                  simp [process_batch, create_temp_table_from_table,
                    merge_upsert_from_table, beginBlock, execList, execStmt, isDdlStmt,
                    applyEffect, commitPending, hp, hc, hi, hm, hd, hin, ← htmp]
                rw [hgoal]
                exact hin
            · exfalso
              simp only [Bool.not_eq_true] at hd
              simp [process_batch, create_temp_table_from_table, merge_upsert_from_table,
                beginBlock, execList, execStmt, isDdlStmt, applyEffect, commitPending,
                hp, hc, hi, hm, hd, ← htmp] at hsucc
          · intro hm2
            exact absurd hm2 (by simp)

/-- Witness for C1 amended: the empty database, stream orders, an
environment accepting every statement. -/
theorem process_batch_staging_lifecycle_witness :
    (([] : List String).Nodup) ∧
    (((process_batch (fun _ => true) ⟨[], [], []⟩ "orders" true).2 = true →
      build_temp_table_name "orders" "_temp" ∉
        (process_batch (fun _ => true) ⟨[], [], []⟩ "orders" true).1.tables) ∧
    ((fun (_ : Stmt) => true) (Stmt.mergeInto "orders" (build_temp_table_name "orders" "_temp")) = false →
      (fun (_ : Stmt) => true) Stmt.prepareDdl = true →
      (fun (_ : Stmt) => true) (Stmt.createTableAs (build_temp_table_name "orders" "_temp") "orders") = true →
      (fun (_ : Stmt) => true) (Stmt.insertRows (build_temp_table_name "orders" "_temp")) = true →
      build_temp_table_name "orders" "_temp" ∈
        (process_batch (fun _ => true) ⟨[], [], []⟩ "orders" true).1.tables)) :=
  ⟨by decide, process_batch_staging_lifecycle (fun _ => true) ⟨[], [], []⟩ "orders" (by decide)⟩

/-- C2: inside merge_upsert_from_table, when the MERGE is accepted and the
DROP TABLE that follows it is rejected, the merge effect is already
committed (Oracle commits implicitly before executing any DDL) and is not
rolled back by the failing block; only the cleanup fails and the error
propagates. -/
theorem merge_upsert_drop_failure_preserves_merge (env : Stmt → Bool) (st : DbState)
    (tmp tbl : String)
    (hm : env (Stmt.mergeInto tbl tmp) = true)
    (hd : env (Stmt.dropTable tmp) = false) :
    ((merge_upsert_from_table env st tmp tbl).1.committedDml =
      st.committedDml ++ st.pendingDml ++ [Stmt.mergeInto tbl tmp]) ∧
    ((merge_upsert_from_table env st tmp tbl).1.pendingDml = []) ∧
    ((merge_upsert_from_table env st tmp tbl).2 = false) := by
  refine ⟨?_, ?_, ?_⟩
  all_goals
    simp [merge_upsert_from_table, beginBlock, execList, execStmt, applyEffect,
      commitPending, isDdlStmt, hm, hd]

/-- Witness for C2: empty state, environment rejecting exactly the drop. -/
theorem merge_upsert_drop_failure_witness :
    ((fun s => match s with | Stmt.dropTable _ => false | _ => true)
        (Stmt.mergeInto "orders" "orders_temp") = true) ∧
    ((fun s => match s with | Stmt.dropTable _ => false | _ => true)
        (Stmt.dropTable "orders_temp") = false) ∧
    (((merge_upsert_from_table
        (fun s => match s with | Stmt.dropTable _ => false | _ => true)
        ⟨[], [], []⟩ "orders_temp" "orders").1.committedDml =
      ([] : List Stmt) ++ ([] : List Stmt) ++ [Stmt.mergeInto "orders" "orders_temp"]) ∧
    ((merge_upsert_from_table
        (fun s => match s with | Stmt.dropTable _ => false | _ => true)
        ⟨[], [], []⟩ "orders_temp" "orders").1.pendingDml = []) ∧
    ((merge_upsert_from_table
        (fun s => match s with | Stmt.dropTable _ => false | _ => true)
        ⟨[], [], []⟩ "orders_temp" "orders").2 = false)) :=
  ⟨rfl, rfl,
    merge_upsert_drop_failure_preserves_merge
      (fun s => match s with | Stmt.dropTable _ => false | _ => true)
      ⟨[], [], []⟩ "orders_temp" "orders" rfl rfl⟩

end TargetOracle
